import Mathlib

/-
Verification of the `config` package: a struct-tag-driven environment
variable loader (config.go, parsers.go, validators.go, constants.go).

The embedding mirrors the Go source: reflect kinds and types are explicit
inductives, a reflect.Value is a `Val` tree that carries its own type
information (as reflect values do), machine integers are `Int` with the
explicit range checks the Go strconv functions perform, and fallible
operations return `Except String`/`Option String` carrying the Go error
message strings.  float64 values are modelled as exact rationals: the Go
code never does float arithmetic beyond strconv parsing and comparisons,
and no claim depends on binary64 rounding, hex-float syntax, or the
Inf/NaN special forms.
-/

namespace Config

/-- reflect.Kind, restricted to the kinds the source mentions
(parsers map, isZeroValue switch, and representative unsupported kinds). -/
inductive Kind where
  | string | int | int8 | int16 | int32 | int64
  | bool | float32 | float64 | slice | structK | complex128
  deriving DecidableEq, Repr

/-- reflect.Kind.String() for the kinds above (used by fmt %v). -/
def kindString : Kind → String
  | .string => "string"
  | .int => "int"
  | .int8 => "int8"
  | .int16 => "int16"
  | .int32 => "int32"
  | .int64 => "int64"
  | .bool => "bool"
  | .float32 => "float32"
  | .float64 => "float64"
  | .slice => "slice"
  | .structK => "struct"
  | .complex128 => "complex128"

/-- reflect.Type, as far as the source inspects it: scalar types,
time.Duration (kind int64 but a distinct type), time.Time (kind struct,
special-cased by isTimeType), slice types with their element type, an
opaque struct type (only needed as a slice element type, where the loader
rejects it before ever building a value), and complex128 as a
representative unsupported type. -/
inductive GoType where
  | stringT | intT | int8T | int16T | int32T | int64T
  | boolT | float32T | float64T
  | durationT | timeT
  | sliceT (elem : GoType)
  | structT
  | complex128T
  deriving DecidableEq, Repr

/-- reflect.Type.Kind(). -/
def GoType.kind : GoType → Kind
  | .stringT => .string
  | .intT => .int
  | .int8T => .int8
  | .int16T => .int16
  | .int32T => .int32
  | .int64T => .int64
  | .boolT => .bool
  | .float32T => .float32
  | .float64T => .float64
  | .durationT => .int64
  | .timeT => .structK
  | .sliceT _ => .slice
  | .structT => .structK
  | .complex128T => .complex128

/-- Slice-nesting depth of a type; bounds the recursion of the slice
parser through the parser registry (in Go the registry is a cyclic data
structure; each nested parse works on a strictly shallower element type). -/
def GoType.depth : GoType → Nat
  | .sliceT e => e.depth + 1
  | _ => 0

/-- The six struct-tag keys the source reads (constants.go): "env",
"required", "default", "min", "max", "range_error".  `tags.Get(k)` returns
"" for an absent key, so each field defaults to "". -/
structure Tags where
  env : String := ""
  required : String := ""
  defaultTag : String := ""
  min : String := ""
  max : String := ""
  rangeErr : String := ""
  deriving DecidableEq, Repr

/-- constants.go: TagTrue. -/
def TagTrue : String := "true"

/-- constants.go: ErrRequiredField. -/
def ErrRequiredField : String := "required field is empty"

/-- constants.go: ErrOutOfRange. -/
def ErrOutOfRange : String := "value out of range"

mutual
/-- A reflect.Value: a runtime value carrying its type.  Slice values
carry their element type (reflect exposes it via Type().Elem()); struct
values carry their fields with names and tags (reflect exposes them via
Type().Field(i)).  `timeV` and `complexV` model only the zero
time.Time / complex128 values — the loader never parses into either
(both kinds are unsupported), so no claim distinguishes their payloads. -/
inductive Val where
  | strV (s : String)
  | intV (n : Int)
  | int8V (n : Int)
  | int16V (n : Int)
  | int32V (n : Int)
  | int64V (n : Int)
  | boolV (b : Bool)
  | float32V (q : ℚ)
  | float64V (q : ℚ)
  | durationV (n : Int)
  | timeV
  | complexV
  | sliceV (elemT : GoType) (elems : ValList)
  | structV (fields : StructFields)

/-- The elements of a slice value. -/
inductive ValList where
  | nil
  | cons (v : Val) (rest : ValList)

/-- The fields of a struct value: declared name, struct tag, value. -/
inductive StructFields where
  | nil
  | cons (name : String) (tags : Tags) (v : Val) (rest : StructFields)
end

/-- reflect.Value.Kind(). -/
def Val.kind : Val → Kind
  | .strV _ => .string
  | .intV _ => .int
  | .int8V _ => .int8
  | .int16V _ => .int16
  | .int32V _ => .int32
  | .int64V _ => .int64
  | .boolV _ => .bool
  | .float32V _ => .float32
  | .float64V _ => .float64
  | .durationV _ => .int64
  | .timeV => .structK
  | .complexV => .complex128
  | .sliceV _ _ => .slice
  | .structV _ => .structK

/-- ValList length (reflect.Value.Len on slices). -/
def ValList.length : ValList → Nat
  | .nil => 0
  | .cons _ rest => rest.length + 1

/-- The zero value of a type (reflect.New(t).Elem()).  The zero of a
slice type is the nil slice (length 0).  `structT` is opaque here: the
slice parser rejects struct element kinds before ever constructing an
element, so its zero value is never consumed. -/
def zeroVal : GoType → Val
  | .stringT => .strV ""
  | .intT => .intV 0
  | .int8T => .int8V 0
  | .int16T => .int16V 0
  | .int32T => .int32V 0
  | .int64T => .int64V 0
  | .boolT => .boolV false
  | .float32T => .float32V 0
  | .float64T => .float64V 0
  | .durationT => .durationV 0
  | .timeT => .timeV
  | .sliceT e => .sliceV e .nil
  | .structT => .structV .nil
  | .complex128T => .complexV

/-- config.go isTimeType: fieldType == reflect.TypeOf(time.Time{}).
Values carry their type, so the check is on the value's type. -/
def isTimeType : Val → Bool
  | .timeV => true
  | _ => false

/-- config.go: fieldType.Type == reflect.TypeOf(time.Duration(0)). -/
def isDurationType : Val → Bool
  | .durationV _ => true
  | _ => false

/-- config.go isNestedStruct: kind is struct and not time.Time. -/
def isNestedStruct (v : Val) : Bool :=
  v.kind == .structK && !(isTimeType v)

/-- reflect.Value.SetString.  Only called on string-kind fields (any
other receiver panics in reflect and is unreachable at every call site). -/
def Val.setString : Val → String → Val
  | .strV _, s => .strV s
  | v, _ => v

/-- reflect.Value.SetInt, preserving the receiver's type (int, int64 and
time.Duration fields all have an int kind).  Only called on int-kind
fields. -/
def Val.setInt : Val → Int → Val
  | .intV _, n => .intV n
  | .int8V _, n => .int8V n
  | .int16V _, n => .int16V n
  | .int32V _, n => .int32V n
  | .int64V _, n => .int64V n
  | .durationV _, n => .durationV n
  | v, _ => v

/-- reflect.Value.SetBool.  Only called on bool-kind fields. -/
def Val.setBool : Val → Bool → Val
  | .boolV _, b => .boolV b
  | v, _ => v

/-- reflect.Value.SetFloat.  Only called on float64-kind fields. -/
def Val.setFloat : Val → ℚ → Val
  | .float32V _, q => .float32V q
  | .float64V _, q => .float64V q
  | v, _ => v

/-- ASCII decimal digit test ('0' <= c && c <= '9' in the Go source). -/
def isDigitC (c : Char) : Bool :=
  '0' ≤ c && c ≤ '9'

/-- Numeric value of a decimal digit character. -/
def digitVal (c : Char) : Nat :=
  c.toNat - '0'.toNat

/-- Value of a list of decimal digit characters, most significant first. -/
def digitsVal (cs : List Char) : Nat :=
  cs.foldl (fun acc c => acc * 10 + digitVal c) 0

/-- strconv's quoting of the offending literal in error messages,
simplified to plain surrounding quotes (no claim depends on escape
sequences inside the quoted literal). -/
def quoteStr (s : String) : String :=
  "\"" ++ s ++ "\""

/-- Strip an optional leading sign; returns (negative?, rest). -/
def stripSign : List Char → Bool × List Char
  | '+' :: rest => (false, rest)
  | '-' :: rest => (true, rest)
  | cs => (false, cs)

/-- strconv.ParseInt(s, 10, 64): optional sign, then one or more decimal
digits (underscores are rejected for an explicit base), with the signed
64-bit range check.  `fn` is the function name reported in the NumError
("ParseInt" or "Atoi").  On error only the error is observed by callers. -/
def goParseInt (fn : String) (s : String) : Except String Int :=
  let syntaxErr := "strconv." ++ fn ++ ": parsing " ++ quoteStr s ++ ": invalid syntax"
  let rangeErr := "strconv." ++ fn ++ ": parsing " ++ quoteStr s ++ ": value out of range"
  let (neg, ds) := stripSign s.data
  if ds.isEmpty || !ds.all isDigitC then
    .error syntaxErr
  else
    let n : Int := (digitsVal ds : Int)
    if neg then
      if n > 2 ^ 63 then .error rangeErr else .ok (-n)
    else
      if n > 2 ^ 63 - 1 then .error rangeErr else .ok n

/-- strconv.Atoi(s) = ParseInt(s, 10, 0) on a 64-bit platform, reporting
"Atoi" as the function name. -/
def goAtoi (s : String) : Except String Int :=
  goParseInt "Atoi" s

/-- strconv.ParseBool: the fixed set of accepted literals. -/
def goParseBool (s : String) : Except String Bool :=
  if s = "1" || s = "t" || s = "T" || s = "TRUE" || s = "true" || s = "True" then
    .ok true
  else if s = "0" || s = "f" || s = "F" || s = "FALSE" || s = "false" || s = "False" then
    .ok false
  else
    .error ("strconv.ParseBool: parsing " ++ quoteStr s ++ ": invalid syntax")

/-- Parse an optional exponent part `(e|E)(+|-)?digits`; returns the
signed exponent and requires the input to be consumed entirely. -/
def parseExpPart : List Char → Option Int
  | [] => some 0
  | 'e' :: rest =>
    match stripSign rest with
    | (neg, ds) =>
      if ds.isEmpty || !ds.all isDigitC then none
      else some (if neg then -(digitsVal ds : Int) else (digitsVal ds : Int))
  | 'E' :: rest =>
    match stripSign rest with
    | (neg, ds) =>
      if ds.isEmpty || !ds.all isDigitC then none
      else some (if neg then -(digitsVal ds : Int) else (digitsVal ds : Int))
  | _ => none

/-- The mantissa-and-exponent decimal grammar of strconv.ParseFloat:
digits [. digits] [exponent], needing at least one digit overall.
Returns the exact rational value. -/
def parseFloatMantissa (cs : List Char) : Option ℚ :=
  let ip := cs.takeWhile isDigitC
  let r1 := cs.dropWhile isDigitC
  match r1 with
  | '.' :: r2 =>
    let fp := r2.takeWhile isDigitC
    let r3 := r2.dropWhile isDigitC
    if ip.isEmpty && fp.isEmpty then none
    else
      match parseExpPart r3 with
      | none => none
      | some e =>
        let base : ℚ := (digitsVal ip : ℚ) + (digitsVal fp : ℚ) / ((10 : ℚ) ^ fp.length)
        some (base * (10 : ℚ) ^ e)
  | _ =>
    if ip.isEmpty then none
    else
      match parseExpPart r1 with
      | none => none
      | some e => some ((digitsVal ip : ℚ) * (10 : ℚ) ^ e)

/-- strconv.ParseFloat(s, 64), modelled over exact rationals: optional
sign followed by the decimal mantissa/exponent grammar.  Go additionally
accepts hex-float literals, grouping underscores, and the Inf/NaN special
forms, and rounds to the nearest binary64 value; none of those corners is
exercised by any claim or by the source's tests, and the rational model
keeps comparisons exact. -/
def goParseFloat (s : String) : Except String ℚ :=
  let (neg, ds) := stripSign s.data
  match parseFloatMantissa ds with
  | some q => .ok (if neg then -q else q)
  | none => .error ("strconv.ParseFloat: parsing " ++ quoteStr s ++ ": invalid syntax")

/-- parsers.go StringParser.Parse: field.SetString(value); never errors. -/
def stringParserParse (value : String) (field : Val) : Except String Val :=
  .ok (field.setString value)

/-- parsers.go Int64Parser.Parse: empty input is a no-op; otherwise
strconv.ParseInt(value, 10, 64) then field.SetInt(v). -/
def int64ParserParse (value : String) (field : Val) : Except String Val :=
  if value = "" then .ok field
  else
    match goParseInt "ParseInt" value with
    | .error e => .error e
    | .ok v => .ok (field.setInt v)

/-- parsers.go IntParser.Parse: empty input is a no-op; otherwise
strconv.Atoi(value) then field.SetInt(int64(v)). -/
def intParserParse (value : String) (field : Val) : Except String Val :=
  if value = "" then .ok field
  else
    match goAtoi value with
    | .error e => .error e
    | .ok v => .ok (field.setInt v)

/-- parsers.go BoolParser.Parse: empty input is a no-op; otherwise
strconv.ParseBool(value) then field.SetBool(v). -/
def boolParserParse (value : String) (field : Val) : Except String Val :=
  if value = "" then .ok field
  else
    match goParseBool value with
    | .error e => .error e
    | .ok v => .ok (field.setBool v)

/-- parsers.go Float64Parser.Parse: empty input is a no-op; otherwise
strconv.ParseFloat(value, 64) then field.SetFloat(v). -/
def float64ParserParse (value : String) (field : Val) : Except String Val :=
  if value = "" then .ok field
  else
    match goParseFloat value with
    | .error e => .error e
    | .ok v => .ok (field.setFloat v)

/-- time's leadingInt: consume leading decimal digits into an unsigned
accumulator with the 1<<63 overflow guards; `.error` is the overflow
signal. -/
def leadingIntGo (x : Nat) : List Char → Except Unit (Nat × List Char)
  | [] => .ok (x, [])
  | c :: cs =>
    if !isDigitC c then .ok (x, c :: cs)
    else if x > 2 ^ 63 / 10 then .error ()
    else
      let x' := x * 10 + digitVal c
      if x' > 2 ^ 63 then .error ()
      else leadingIntGo x' cs

/-- time's leadingFraction: consume fractional digits, keeping the
running value and scale, silently discarding digits once the value would
overflow.  Go keeps `scale` as a float64 power of ten; here it is the
exact power of ten. -/
def leadingFractionGo (x scale : Nat) (overflow : Bool) : List Char → Nat × Nat × List Char
  | [] => (x, scale, [])
  | c :: cs =>
    if !isDigitC c then (x, scale, c :: cs)
    else if overflow then leadingFractionGo x scale true cs
    else if x > (2 ^ 63 - 1) / 10 then leadingFractionGo x scale true cs
    else
      let y := x * 10 + digitVal c
      if y > 2 ^ 63 then leadingFractionGo x scale true cs
      else leadingFractionGo y (scale * 10) false cs

/-- time's unitMap: nanoseconds per unit. -/
def unitLookup : List Char → Option Nat
  | ['n', 's'] => some 1
  | ['u', 's'] => some 1000
  | ['µ', 's'] => some 1000
  | ['μ', 's'] => some 1000
  | ['m', 's'] => some 1000000
  | ['s'] => some 1000000000
  | ['m'] => some 60000000000
  | ['h'] => some 3600000000000
  | _ => none

/-- A character that ends a unit token (the unit scan in ParseDuration
breaks on '.' or a digit). -/
def endsUnit (c : Char) : Bool :=
  c = '.' || isDigitC c

/-- The main loop of time.ParseDuration, accumulating nanoseconds in `d`.
Each iteration consumes at least one character, so the explicit fuel
(always supplied as one more than the remaining length) never runs out;
the fuel-exhausted arm is unreachable.  The fractional contribution is
computed as the exact floor of f*unit/scale where Go uses
uint64(float64(f) * (float64(unit)/scale)); no claim involves fractional
durations. -/
def parseDurationLoop (orig : String) (fuel : Nat) (d : Nat) (s : List Char) :
    Except String Nat :=
  let invalid := "time: invalid duration " ++ quoteStr orig
  match fuel with
  | 0 => .error invalid
  | fuel' + 1 =>
    match s with
    | [] => .ok d
    | c :: _ =>
      if !(c = '.' || isDigitC c) then .error invalid
      else
        match leadingIntGo 0 s with
        | .error _ => .error invalid
        | .ok (v, s1) =>
          let pre := decide (s1.length ≠ s.length)
          let fr :=
            match s1 with
            | '.' :: r =>
              let (f, sc, rest) := leadingFractionGo 0 1 false r
              (f, sc, rest, decide (rest.length ≠ r.length))
            | _ => (0, 1, s1, false)
          match fr with
          | (f, scale, s2, post) =>
            if !pre && !post then .error invalid
            else
              let u := s2.takeWhile (fun c => !endsUnit c)
              let s3 := s2.dropWhile (fun c => !endsUnit c)
              if u.isEmpty then
                .error ("time: missing unit in duration " ++ quoteStr orig)
              else
                match unitLookup u with
                | none =>
                  .error ("time: unknown unit " ++ quoteStr (String.mk u) ++
                    " in duration " ++ quoteStr orig)
                | some unit =>
                  if v > 2 ^ 63 / unit then .error invalid
                  else
                    let v1 := v * unit
                    let v2 := if f > 0 then v1 + f * unit / scale else v1
                    if f > 0 && v2 > 2 ^ 63 then .error invalid
                    else
                      let d' := d + v2
                      if d' > 2 ^ 63 then .error invalid
                      else parseDurationLoop orig fuel' d' s3

/-- time.ParseDuration: optional sign, the special case "0", then the
repeated number-unit loop; the result is in nanoseconds. -/
def goParseDuration (s : String) : Except String Int :=
  let orig := s
  let (neg, s1) := stripSign s.data
  if s1 = ['0'] then .ok 0
  else if s1.isEmpty then .error ("time: invalid duration " ++ quoteStr orig)
  else
    match parseDurationLoop orig (s1.length + 1) 0 s1 with
    | .error e => .error e
    | .ok d =>
      if neg then .ok (-(d : Int))
      else if d > 2 ^ 63 - 1 then
        .error ("time: invalid duration " ++ quoteStr orig)
      else .ok (d : Int)

/-- parsers.go DurationParser.Parse: empty input is a no-op; a raw value
that strconv.Atoi accepts gets a trailing "s" appended; then
time.ParseDuration, and on success field.Set(reflect.ValueOf(d)) — which
requires (and at its only call site has) a time.Duration field. -/
def durationParserParse (value : String) (field : Val) : Except String Val :=
  if value = "" then .ok field
  else
    let value' :=
      match goAtoi value with
      | .ok _ => value ++ "s"
      | .error _ => value
    match goParseDuration value' with
    | .error e => .error e
    | .ok d => .ok (.durationV d)

/-- The parser interface: Parse(value string, field reflect.Value) error,
with the updated field as the success result (reflect mutates in place;
every error path of the source's parsers leaves the field untouched, and
the embedding's callers keep the original value on error). -/
abbrev ValueParser := String → Val → Except String Val

/-- Fuel bound for the slice parser: the slice-nesting depth of a value's
own type. -/
def Val.depthB : Val → Nat
  | .sliceV elemT _ => elemT.depth + 1
  | _ => 0

/-- strings.Split(s, ",") on the character list. -/
def splitComma : List Char → List (List Char)
  | [] => [[]]
  | c :: cs =>
    if c = ',' then [] :: splitComma cs
    else
      match splitComma cs with
      | h :: t => (c :: h) :: t
      | [] => [[c]]

/-- strings.Split(value, ","). -/
def goSplitComma (s : String) : List String :=
  (splitComma s.data).map String.mk

/-- The element loop of SliceParser.ParseWithContext: each element is
parsed into a fresh zero value of the element type
(reflect.New(elemType).Elem()) and appended; the first element error
aborts the whole conversion. -/
def parseElems (p : ValueParser) (elemT : GoType) : List String → Except String ValList
  | [] => .ok .nil
  | s :: rest =>
    match p s (zeroVal elemT) with
    | .error e => .error e
    | .ok v =>
      match parseElems p elemT rest with
      | .error e => .error e
      | .ok vs => .ok (.cons v vs)

/-- parsers.go SliceParser.ParseWithContext.  In Go the default parser
map contains the SliceParser itself, a benign cycle bounded by the
element-type depth; the bound is made explicit here as fuel (the zero
arm is unreachable at every call, which supplies fuel exceeding the
receiver's type depth), and the default map's entries are spelled inline
in the no-provider branch so that the slice entry can close the
recursive knot at the smaller fuel.  Empty input is a no-op; otherwise
the raw value is split on commas, the element parser is looked up — in
the provided function if one was passed, else in the default map — an
absent element parser fails closed, each element is parsed into a fresh
zero value, and only after every element succeeded is the assembled
slice assigned to the field.  A non-slice receiver would make
field.Type().Elem() panic in reflect and is unreachable at every call
site. -/
def sliceParseAux : Nat → String → Val → Option (Kind → Option ValueParser) →
    Except String Val
  | 0, _, _, _ => .error "slice nesting exceeded modelled depth"
  | fuel + 1, value, field, provider =>
    if value = "" then .ok field
    else
      match field with
      | .sliceV elemT _ =>
        let values := goSplitComma value
        let getParser : Kind → Option ValueParser :=
          match provider with
          | some g => g
          | none => fun k =>
            match k with
            | .string => some stringParserParse
            | .int64 => some int64ParserParse
            | .int => some intParserParse
            | .slice => some (fun v f => sliceParseAux fuel v f none)
            | .bool => some boolParserParse
            | .float64 => some float64ParserParse
            | _ => none
        match getParser elemT.kind with
        | none => .error ("unsupported slice element type: " ++ kindString elemT.kind)
        | some elemParser =>
          match parseElems elemParser elemT values with
          | .error e => .error e
          | .ok vs => .ok (.sliceV elemT vs)
      | _ => .error "reflect: Elem of non-slice value"

/-- SliceParser.ParseWithContext at its public signature, supplying fuel
from the receiver's own type depth. -/
def sliceParserParseWithContext (value : String) (field : Val)
    (provider : Option (Kind → Option ValueParser)) : Except String Val :=
  sliceParseAux (field.depthB + 1) value field provider

/-- parsers.go SliceParser.Parse: ParseWithContext with no provider. -/
def sliceParserParse (value : String) (field : Val) : Except String Val :=
  sliceParserParseWithContext value field none

/-- parsers.go defaultParsers at its public signature. -/
def defaultParsers : Kind → Option ValueParser := fun k =>
  match k with
  | .string => some stringParserParse
  | .int64 => some int64ParserParse
  | .int => some intParserParse
  | .slice => some sliceParserParse
  | .bool => some boolParserParse
  | .float64 => some float64ParserParse
  | _ => none

mutual
/-- validators.go isZeroValue, switching on the value's kind: length
zero for slices (and maps, not otherwise modelled), "" for strings, 0
for the signed integer kinds (which include time.Duration, of kind
int64) and the float kinds, and reflect.DeepEqual against the type's
zero value for everything else — false for bool, the zero instant for
time.Time and the zero complex for complex128 (the only values of those
types the model builds), all fields zero for a struct (unreachable:
validators only ever run on leaf fields). -/
def isZeroValue : Val → Bool
  | .sliceV _ xs => xs.length == 0
  | .strV s => s == ""
  | .intV n => n == 0
  | .int8V n => n == 0
  | .int16V n => n == 0
  | .int32V n => n == 0
  | .int64V n => n == 0
  | .durationV n => n == 0
  | .float32V q => q == 0
  | .float64V q => q == 0
  | .boolV b => b == false
  | .timeV => true
  | .complexV => true
  | .structV fs => sfAllZero fs

/-- reflect.DeepEqual of a struct against its zero value, fieldwise. -/
def sfAllZero : StructFields → Bool
  | .nil => true
  | .cons _ _ v rest => isZeroValue v && sfAllZero rest
end

/-- validators.go RequiredValidator.Validate: pass unless the tag maps
"required" to "true"; then fail with ErrRequiredField exactly on a zero
value.  Validators return error; `none` is the nil (pass) result. -/
def requiredValidatorValidate (field : Val) (tags : Tags) : Option String :=
  if tags.required ≠ TagTrue then none
  else if isZeroValue field then some ErrRequiredField
  else none

/-- validators.go validateIntRange on the extracted int64 (the source's
inner type switch re-extracts int64 from the interface value; both call
sites pass int or int64, so the "unsupported integer type" arm is
unreachable and the extraction is the identity here). -/
def validateIntRange (val : Int) (minStr maxStr : String) : Option String :=
  let afterMin : Except String Unit :=
    if minStr ≠ "" then
      match goParseInt "ParseInt" minStr with
      | .error e => .error ("invalid min value: " ++ e)
      | .ok m => if val < m then .error ("value " ++ toString val ++ " is less than minimum " ++ toString m) else .ok ()
    else .ok ()
  match afterMin with
  | .error e => some e
  | .ok _ =>
    if maxStr ≠ "" then
      match goParseInt "ParseInt" maxStr with
      | .error e => some ("invalid max value: " ++ e)
      | .ok m => if val > m then some ("value " ++ toString val ++ " is greater than maximum " ++ toString m) else none
    else none

/-- fmt's %f rendering of a float64, modelled on the exact rational:
sign, integer part, six fractional digits (rounded half away from zero;
Go rounds the binary64 value half-to-even — the difference only shows in
ties no claim exercises, and only inside error message text). -/
def formatFloat6 (q : ℚ) : String :=
  let sign := if q < 0 then "-" else ""
  let n : Nat := (Int.natAbs (round (|q| * 1000000) : ℤ))
  let ip := n / 1000000
  let fp := n % 1000000
  let fpStr := toString fp
  let pad := String.mk (List.replicate (6 - fpStr.length) '0')
  sign ++ toString ip ++ "." ++ pad ++ fpStr

/-- validators.go validateFloatRange, over the exact-rational float
model. -/
def validateFloatRange (value : ℚ) (minStr maxStr : String) : Option String :=
  let afterMin : Except String Unit :=
    if minStr ≠ "" then
      match goParseFloat minStr with
      | .error e => .error ("invalid min value: " ++ e)
      | .ok m => if value < m then .error ("value " ++ formatFloat6 value ++ " is less than minimum " ++ formatFloat6 m) else .ok ()
    else .ok ()
  match afterMin with
  | .error e => some e
  | .ok _ =>
    if maxStr ≠ "" then
      match goParseFloat maxStr with
      | .error e => some ("invalid max value: " ++ e)
      | .ok m => if value > m then some ("value " ++ formatFloat6 value ++ " is greater than maximum " ++ formatFloat6 m) else none
    else none

/-- validators.go RangeValidator.Validate: pass if neither bound tag is
declared; otherwise type-switch on the field's dynamic interface value —
only `int`/`int64` take the integer path and only `float64` the float
path, every other dynamic type (including int8/int16/int32, float32,
time.Duration, bool, string, slices) leaves err nil — and wrap a
failure in the declared "range_error" message or the generic
ErrOutOfRange. -/
def rangeValidatorValidate (field : Val) (tags : Tags) : Option String :=
  if tags.min = "" && tags.max = "" then none
  else
    let errMsg := if tags.rangeErr = "" then ErrOutOfRange else tags.rangeErr
    let err : Option String :=
      match field with
      | .intV n => validateIntRange n tags.min tags.max
      | .int64V n => validateIntRange n tags.min tags.max
      | .float64V q => validateFloatRange q tags.min tags.max
      | _ => none
    match err with
    | some e => some (errMsg ++ ": " ++ e)
    | none => none

/-- A validator: Validate(field reflect.Value, tags reflect.StructTag)
error. -/
abbrev ValidatorFn := Val → Tags → Option String

/-- config.go EnvLoader: parser map, validator list, key prefix (the
`pfx` field models the loader's prefix string). -/
structure EnvLoader where
  parsers : Kind → Option ValueParser
  validators : List ValidatorFn
  pfx : String

/-- config.go NewEnvLoader's default loader state: default parsers,
required-then-range validators, empty prefix. -/
def defaultLoader : EnvLoader :=
  { parsers := defaultParsers
    validators := [requiredValidatorValidate, rangeValidatorValidate]
    pfx := "" }

/-- config.go Option. -/
abbrev LoaderOption := EnvLoader → EnvLoader

/-- config.go WithParser: map assignment at the given kind. -/
def withParser (kind : Kind) (p : ValueParser) : LoaderOption := fun l =>
  { l with parsers := fun k => if k = kind then some p else l.parsers k }

/-- config.go WithValidator: append to the validator list. -/
def withValidator (v : ValidatorFn) : LoaderOption := fun l =>
  { l with validators := l.validators ++ [v] }

/-- config.go WithPrefix: set the loader's key prefix. -/
def withPfx (p : String) : LoaderOption := fun l =>
  { l with pfx := p }

/-- config.go NewEnvLoader: defaults, then the options in order. -/
def newEnvLoader (opts : List LoaderOption) : EnvLoader :=
  opts.foldl (fun l o => o l) defaultLoader

/-- The process environment: a key is either set (to a possibly empty
string) or absent. -/
abbrev Env := String → Option String

/-- os.Getenv: the empty string both for an absent key and for a key set
to the empty string. -/
def osGetenv (env : Env) (k : String) : String :=
  (env k).getD ""

/-- config.go getEnvValueWithDefault: apply the prefix if one is set,
read the environment, and fall back to the "default" tag when the
environment yields the empty string and the tag is non-empty. -/
def getEnvValueWithDefault (l : EnvLoader) (env : Env) (envKey : String)
    (tags : Tags) : String :=
  let key := if l.pfx ≠ "" then l.pfx ++ envKey else envKey
  let envValue := osGetenv env key
  if envValue = "" then
    let defaultValue := tags.defaultTag
    if defaultValue ≠ "" then defaultValue else envValue
  else envValue

/-- config.go validateField: run the registered validators in order,
returning the first failure. -/
def runValidators (vs : List ValidatorFn) (field : Val) (tags : Tags) : Option String :=
  match vs with
  | [] => none
  | v :: rest =>
    match v field tags with
    | some e => some e
    | none => runValidators rest field tags

/-- config.go validateField on a loader. -/
def validateField (l : EnvLoader) (field : Val) (tags : Tags) : Option String :=
  runValidators l.validators field tags

/-- config.go parseAndValidateDuration: a freshly constructed
DurationParser, then the validators.  The result pairs the field's final
state (unchanged on a parse error) with the error, mirroring in-place
mutation plus returned error. -/
def parseAndValidateDuration (l : EnvLoader) (envValue : String) (tags : Tags)
    (field : Val) : Val × Option String :=
  match durationParserParse envValue field with
  | .error e => (field, some e)
  | .ok field' => (field', validateField l field' tags)

/-- config.go parseAndValidateSlice: a freshly constructed SliceParser
driven through ParseWithContext with the loader's getParserForType as
the element-parser provider, then the validators. -/
def parseAndValidateSlice (l : EnvLoader) (envValue : String) (tags : Tags)
    (field : Val) : Val × Option String :=
  match sliceParserParseWithContext envValue field (some l.parsers) with
  | .error e => (field, some e)
  | .ok field' => (field', validateField l field' tags)

/-- config.go parseAndValidateField: time.Duration fields take the
dedicated duration path, slice-kind fields the dedicated slice path; all
other kinds dispatch through the loader's parser map, an unregistered
kind failing with the unsupported-type error before any parser runs. -/
def parseAndValidateField (l : EnvLoader) (envValue : String) (tags : Tags)
    (field : Val) : Val × Option String :=
  if isDurationType field then
    parseAndValidateDuration l envValue tags field
  else if field.kind = .slice then
    parseAndValidateSlice l envValue tags field
  else
    match l.parsers field.kind with
    | none => (field, some ("unsupported type: " ++ kindString field.kind))
    | some parser =>
      match parser envValue field with
      | .error e => (field, some e)
      | .ok field' => (field', validateField l field' tags)

/-- config.go loadField: a field with an absent or empty "env" tag is
skipped untouched; otherwise resolve the raw value and parse/validate. -/
def loadField (l : EnvLoader) (env : Env) (tags : Tags) (field : Val) :
    Val × Option String :=
  if tags.env = "" then (field, none)
  else
    parseAndValidateField l (getEnvValueWithDefault l env tags.env tags) tags field

/-- The outcome of a load over a struct value: normal completion, an
error return (with the value's state when the error surfaced — the walk
is not transactional), or a reflection panic. -/
inductive Outcome where
  | ok (v : Val)
  | fail (v : Val) (msg : String)
  | panics (v : Val) (msg : String)

/-- The same outcome over the field list of a struct. -/
inductive OutcomeF where
  | ok (fs : StructFields)
  | fail (fs : StructFields) (msg : String)
  | panics (fs : StructFields) (msg : String)

/-- Re-attach a processed field in front of the outcome of the remaining
fields. -/
def consF (name : String) (tags : Tags) (v : Val) : OutcomeF → OutcomeF
  | .ok fs => .ok (.cons name tags v fs)
  | .fail fs m => .fail (.cons name tags v fs) m
  | .panics fs m => .panics (.cons name tags v fs) m

mutual
/-- config.go loadStruct: iterate the struct's fields in declared order.
A non-struct receiver reproduces reflect's NumField panic (reachable
through LoadConfig on a pointer to a non-struct). -/
def loadStruct (l : EnvLoader) (env : Env) (v : Val) : Outcome :=
  match v with
  | .structV fs =>
    match loadFieldsGo l env fs with
    | .ok fs' => .ok (.structV fs')
    | .fail fs' m => .fail (.structV fs') m
    | .panics fs' m => .panics (.structV fs') m
  | v =>
    .panics v ("reflect: call of reflect.Value.NumField on " ++
      kindString v.kind ++ " Value")

/-- The body of loadStruct's field loop: nested structs (other than
time.Time) recurse unconditionally, leaves go through loadField; either
failure returns immediately wrapped as "field <name>: <cause>", leaving
the remaining siblings untouched and the earlier ones at their processed
values. -/
def loadFieldsGo (l : EnvLoader) (env : Env) : StructFields → OutcomeF
  | .nil => .ok .nil
  | .cons name tags v rest =>
    if isNestedStruct v then
      match loadStruct l env v with
      | .ok v' => consF name tags v' (loadFieldsGo l env rest)
      | .fail v' m => .fail (.cons name tags v' rest) ("field " ++ name ++ ": " ++ m)
      | .panics v' m => .panics (.cons name tags v' rest) m
    else
      match loadField l env tags v with
      | (v', none) => consF name tags v' (loadFieldsGo l env rest)
      | (v', some m) => .fail (.cons name tags v' rest) ("field " ++ name ++ ": " ++ m)
end

/-- One field's processing, as a standalone view of the loop body (the
nested-struct branch or the leaf branch). -/
def processField1 (l : EnvLoader) (env : Env) (tags : Tags) (v : Val) : Outcome :=
  if isNestedStruct v then loadStruct l env v
  else
    match loadField l env tags v with
    | (v', none) => .ok v'
    | (v', some m) => .fail v' m

/-- The argument to LoadConfig: either a pointer (carrying its referent)
or a non-pointer value. -/
inductive GoArg where
  | ptr (v : Val)
  | nonPtr (v : Val)

/-- config.go (*EnvLoader).LoadConfig: reject a non-pointer argument
with "config must be a pointer", otherwise walk v.Elem().  The guard
checks only the pointer kind: a pointer to a non-struct passes it and
reaches loadStruct's NumField panic. -/
def loadConfigGo (l : EnvLoader) (env : Env) : GoArg → Outcome
  | .nonPtr v => .fail v "config must be a pointer"
  | .ptr v => loadStruct l env v

/-- An environment with no keys set. -/
def emptyEnv : Env := fun _ => none

/-- Append struct field lists (for stating walk decompositions). -/
def sfAppend : StructFields → StructFields → StructFields
  | .nil, ys => ys
  | .cons n t v rest, ys => .cons n t v (sfAppend rest ys)

/-- Prepend already-processed fields in front of a field-list outcome. -/
def prependF : StructFields → OutcomeF → OutcomeF
  | .nil, o => o
  | .cons n t v rest, o => consF n t v (prependF rest o)

/-- C1: the resolved raw value of an annotated leaf is the environment
value at prefix-plus-key when non-empty, else the non-empty default tag,
else the empty string. -/
theorem c1_env_resolution :
    (∀ (l : EnvLoader) (env : Env) (envKey : String) (tags : Tags),
      getEnvValueWithDefault l env envKey tags =
        (if osGetenv env (l.pfx ++ envKey) ≠ "" then osGetenv env (l.pfx ++ envKey)
         else if tags.defaultTag ≠ "" then tags.defaultTag else "")) ∧
    (∀ (l : EnvLoader) (env : Env) (k0 envKey : String) (tags : Tags),
      getEnvValueWithDefault l (fun s => if s = k0 then some "" else env s) envKey tags =
        getEnvValueWithDefault l (fun s => if s = k0 then none else env s) envKey tags) ∧
    (∀ (env₁ env₂ : Env) (tags : Tags),
      env₁ "APP_PORT" = env₂ "APP_PORT" →
        getEnvValueWithDefault (withPfx "APP_" defaultLoader) env₁ "PORT" tags =
          getEnvValueWithDefault (withPfx "APP_" defaultLoader) env₂ "PORT" tags) := by
  have key : ∀ (l : EnvLoader) (env : Env) (envKey : String) (tags : Tags),
      getEnvValueWithDefault l env envKey tags =
        (if osGetenv env (l.pfx ++ envKey) ≠ "" then osGetenv env (l.pfx ++ envKey)
         else if tags.defaultTag ≠ "" then tags.defaultTag else "") := by
    intro l env envKey tags
    unfold getEnvValueWithDefault
    by_cases hp : l.pfx = ""
    · rw [hp, String.empty_append]
      simp only [hp, ne_eq, not_true_eq_false, if_false]
      by_cases hv : osGetenv env envKey = "" <;> simp [hv]
    · simp only [ne_eq, hp, not_false_eq_true, if_true]
      by_cases hv : osGetenv env (l.pfx ++ envKey) = "" <;> simp [hv]
  refine ⟨key, ?_, ?_⟩
  · intro l env k0 envKey tags
    rw [key, key]
    by_cases hk : l.pfx ++ envKey = k0 <;> simp [osGetenv, hk]
  · intro env₁ env₂ tags h
    rw [key, key]
    have hp : (withPfx "APP_" defaultLoader).pfx ++ "PORT" = "APP_PORT" := rfl
    rw [hp]
    simp [osGetenv, h]

/-- C1 witness: with prefix "APP_" and key "PORT", only "APP_PORT"
matters — two environments differing at every other key resolve
identically. -/
theorem c1_env_resolution_witness :
    getEnvValueWithDefault (withPfx "APP_" defaultLoader)
        (fun k => if k = "APP_PORT" then some "8080" else some "X") "PORT" {} =
      getEnvValueWithDefault (withPfx "APP_" defaultLoader)
        (fun k => if k = "APP_PORT" then some "8080" else none) "PORT" {} :=
  c1_env_resolution.2.2
    (fun k => if k = "APP_PORT" then some "8080" else some "X")
    (fun k => if k = "APP_PORT" then some "8080" else none) {} (by decide)

/-- C2: the required validator fails (with the required-field error)
exactly when the tag maps "required" to "true" and the post-parse value
is its type's zero value — "" for strings, 0 for numbers, length 0 for
slices, equality with the type default otherwise (so false for a bool). -/
theorem c2_required_validator :
    (∀ (field : Val) (tags : Tags),
      (∃ e, requiredValidatorValidate field tags = some e) ↔
        (tags.required = "true" ∧ isZeroValue field = true)) ∧
    (∀ (field : Val) (tags : Tags),
      requiredValidatorValidate field tags = none ∨
        requiredValidatorValidate field tags = some ErrRequiredField) ∧
    (∀ s, isZeroValue (.strV s) = (s == "")) ∧
    (∀ n, isZeroValue (.intV n) = (n == 0)) ∧
    (∀ n, isZeroValue (.int64V n) = (n == 0)) ∧
    (∀ q, isZeroValue (.float64V q) = (q == 0)) ∧
    (∀ t xs, isZeroValue (.sliceV t xs) = (xs.length == 0)) ∧
    (∀ b, isZeroValue (.boolV b) = (b == false)) := by
  refine ⟨?_, ?_, fun _ => rfl, fun _ => rfl, fun _ => rfl, fun _ => rfl,
    fun _ _ => rfl, fun _ => rfl⟩
  · intro field tags
    unfold requiredValidatorValidate TagTrue
    by_cases hr : tags.required = "true"
    · simp only [hr, ne_eq, not_true_eq_false, if_false]
      by_cases hz : isZeroValue field <;> simp [hz]
    · simp [hr]
  · intro field tags
    unfold requiredValidatorValidate
    by_cases hr : tags.required = TagTrue
    · simp only [hr, ne_eq, not_true_eq_false, if_false]
      by_cases hz : isZeroValue field <;> simp [hz]
    · simp [hr]

/-- C5 counterexample: the string parser given the empty raw string does
not leave a pre-existing non-empty value in place — SetString("")
overwrites it with "". -/
theorem c5_counterexample :
    stringParserParse "" (.strV "preset") = .ok (.strV "") ∧
      stringParserParse "" (.strV "preset") ≠ .ok (.strV "preset") := by
  refine ⟨rfl, fun h => ?_⟩
  have h1 : (Except.ok (Val.strV "") : Except String Val) = .ok (.strV "preset") := h
  injection h1 with h2
  injection h2 with h3
  exact absurd h3 (by decide)

/-- C5 (amended): the int64, int, bool and float64 parsers treat the
empty raw string as an errorless no-op for every pre-existing value, and
twice in a row; the string parser never errors but assigns the raw
string unconditionally, so on "" it sets the field to "" (a no-op only
when the prior value is already "", and idempotent from the second
application on). -/
theorem c5_empty_scalar_noop :
    ∀ field : Val,
      int64ParserParse "" field = .ok field ∧
      intParserParse "" field = .ok field ∧
      boolParserParse "" field = .ok field ∧
      float64ParserParse "" field = .ok field ∧
      stringParserParse "" field = .ok (field.setString "") ∧
      stringParserParse "" (field.setString "") = .ok (field.setString "") := by
  intro field
  refine ⟨rfl, rfl, rfl, rfl, rfl, ?_⟩
  show Except.ok ((field.setString "").setString "") = .ok (field.setString "")
  cases field <;> rfl

/-- validateIntRange passes exactly when each declared bound parses and
is satisfied (inclusively). -/
theorem validateIntRange_none_iff (n : Int) (minS maxS : String) :
    validateIntRange n minS maxS = none ↔
      ((minS = "" ∨ ∃ m, goParseInt "ParseInt" minS = .ok m ∧ m ≤ n) ∧
       (maxS = "" ∨ ∃ m, goParseInt "ParseInt" maxS = .ok m ∧ n ≤ m)) := by
  unfold validateIntRange
  by_cases hmin : minS = ""
  · simp only [hmin, ne_eq, not_true_eq_false, if_false, true_or, true_and]
    by_cases hmax : maxS = ""
    · simp [hmax]
    · simp only [hmax, ne_eq, not_false_eq_true, if_true, false_or]
      cases hpm : goParseInt "ParseInt" maxS with
      | error e => simp
      | ok m =>
        by_cases hc : n > m
        · simp only [hc, if_true]
          constructor
          · intro h; exact absurd h (by simp)
          · rintro ⟨m', hm', hle⟩
            injection hm' with hm'; omega
        · simp only [hc, if_false]
          constructor
          · intro _; exact ⟨m, rfl, by omega⟩
          · intro _; trivial
  · simp only [ne_eq, hmin, not_false_eq_true, if_true, false_or]
    cases hp : goParseInt "ParseInt" minS with
    | error e =>
      simp only []
      constructor
      · intro h; exact absurd h (by simp)
      · rintro ⟨⟨m', hm', _⟩, _⟩; simp at hm'
    | ok m =>
      by_cases hc : n < m
      · simp only [hc, if_true]
        constructor
        · intro h; exact absurd h (by simp)
        · rintro ⟨⟨m', hm', hle⟩, _⟩
          injection hm' with hm'; omega
      · simp only [hc, if_false]
        by_cases hmax : maxS = ""
        · simp only [hmax, true_or, and_true]
          constructor
          · intro _; exact ⟨m, rfl, by omega⟩
          · intro _; trivial
        · simp only [hmax, false_or]
          cases hpm : goParseInt "ParseInt" maxS with
          | error e =>
            constructor
            · intro h; exact absurd h (by simp)
            · rintro ⟨_, m', hm', _⟩; simp at hm'
          | ok mx =>
            by_cases hcx : n > mx
            · simp only [hcx, if_true]
              constructor
              · intro h; exact absurd h (by simp)
              · rintro ⟨_, m', hm', hle⟩
                injection hm' with hm'; omega
            · simp only [hcx, if_false]
              constructor
              · intro _; exact ⟨⟨m, rfl, by omega⟩, ⟨mx, rfl, by omega⟩⟩
              · intro _; trivial

/-- validateFloatRange passes exactly when each declared bound parses
and is satisfied (inclusively), over the exact-rational float model. -/
theorem validateFloatRange_none_iff (q : ℚ) (minS maxS : String) :
    validateFloatRange q minS maxS = none ↔
      ((minS = "" ∨ ∃ m, goParseFloat minS = .ok m ∧ m ≤ q) ∧
       (maxS = "" ∨ ∃ m, goParseFloat maxS = .ok m ∧ q ≤ m)) := by
  unfold validateFloatRange
  by_cases hmin : minS = ""
  · simp only [hmin, ne_eq, not_true_eq_false, if_false, true_or, true_and]
    by_cases hmax : maxS = ""
    · simp [hmax]
    · simp only [hmax, ne_eq, not_false_eq_true, if_true, false_or]
      cases hpm : goParseFloat maxS with
      | error e => simp
      | ok m =>
        by_cases hc : q > m
        · simp only [hc, if_true]
          constructor
          · intro h; exact absurd h (by simp)
          · rintro ⟨m', hm', hle⟩
            injection hm' with hm'; subst hm'; exact absurd hc (not_lt.mpr hle)
        · simp only [hc, if_false]
          constructor
          · intro _; exact ⟨m, rfl, not_lt.mp hc⟩
          · intro _; trivial
  · simp only [ne_eq, hmin, not_false_eq_true, if_true, false_or]
    cases hp : goParseFloat minS with
    | error e =>
      constructor
      · intro h; exact absurd h (by simp)
      · rintro ⟨⟨m', hm', _⟩, _⟩; simp at hm'
    | ok m =>
      by_cases hc : q < m
      · simp only [hc, if_true]
        constructor
        · intro h; exact absurd h (by simp)
        · rintro ⟨⟨m', hm', hle⟩, _⟩
          injection hm' with hm'; subst hm'; exact absurd hc (not_lt.mpr hle)
      · simp only [hc, if_false]
        by_cases hmax : maxS = ""
        · simp only [hmax, true_or, and_true]
          constructor
          · intro _; exact ⟨m, rfl, not_lt.mp hc⟩
          · intro _; trivial
        · simp only [hmax, false_or]
          cases hpm : goParseFloat maxS with
          | error e =>
            constructor
            · intro h; exact absurd h (by simp)
            · rintro ⟨_, m', hm', _⟩; simp at hm'
          | ok mx =>
            by_cases hcx : q > mx
            · simp only [hcx, if_true]
              constructor
              · intro h; exact absurd h (by simp)
              · rintro ⟨_, m', hm', hle⟩
                injection hm' with hm'; subst hm'; exact absurd hcx (not_lt.mpr hle)
            · simp only [hcx, if_false]
              constructor
              · intro _; exact ⟨⟨m, rfl, not_lt.mp hc⟩, ⟨mx, rfl, not_lt.mp hcx⟩⟩
              · intro _; trivial

/-- C4 counterexample: an int32 value — an integer-kinded field — with a
declared max bound it exceeds passes the range validator (the type
switch matches only int, int64 and float64), while the same value as an
int64 fails. -/
theorem c4_counterexample :
    rangeValidatorValidate (.int32V 101) { max := "100" } = none ∧
    (Val.int32V 101).kind = .int32 ∧
    rangeValidatorValidate (.int64V 101) { max := "100" } =
      some "value out of range: value 101 is greater than maximum 100" :=
  ⟨rfl, rfl, rfl⟩

/-- C4 (amended): only values of dynamic type int, int64 or float64 are
range-checked.  For those, the validator fails exactly when a declared
bound fails to parse or the value lies outside the declared inclusive
bounds, wrapping the detail in the declared custom message or the
generic out-of-range message; every other dynamic type — including the
narrower integer kinds, float32 and time.Duration — silently skips, and
a field with neither bound declared always passes. -/
theorem c4_range_validator :
    (∀ (v : Val) (tags : Tags), tags.min = "" → tags.max = "" →
      rangeValidatorValidate v tags = none) ∧
    (∀ (n : Int) (tags : Tags),
      rangeValidatorValidate (.int8V n) tags = none ∧
      rangeValidatorValidate (.int16V n) tags = none ∧
      rangeValidatorValidate (.int32V n) tags = none ∧
      rangeValidatorValidate (.durationV n) tags = none) ∧
    (∀ (q : ℚ) (tags : Tags), rangeValidatorValidate (.float32V q) tags = none) ∧
    (∀ (s : String) (tags : Tags), rangeValidatorValidate (.strV s) tags = none) ∧
    (∀ (b : Bool) (tags : Tags), rangeValidatorValidate (.boolV b) tags = none) ∧
    (∀ (t : GoType) (xs : ValList) (tags : Tags),
      rangeValidatorValidate (.sliceV t xs) tags = none) ∧
    (∀ (n : Int) (minS maxS : String),
      validateIntRange n minS maxS = none ↔
        ((minS = "" ∨ ∃ m, goParseInt "ParseInt" minS = .ok m ∧ m ≤ n) ∧
         (maxS = "" ∨ ∃ m, goParseInt "ParseInt" maxS = .ok m ∧ n ≤ m))) ∧
    (∀ (q : ℚ) (minS maxS : String),
      validateFloatRange q minS maxS = none ↔
        ((minS = "" ∨ ∃ m, goParseFloat minS = .ok m ∧ m ≤ q) ∧
         (maxS = "" ∨ ∃ m, goParseFloat maxS = .ok m ∧ q ≤ m))) ∧
    (∀ (n : Int) (tags : Tags), ¬(tags.min = "" ∧ tags.max = "") →
      ((rangeValidatorValidate (.intV n) tags = none ↔
          validateIntRange n tags.min tags.max = none) ∧
       (rangeValidatorValidate (.int64V n) tags = none ↔
          validateIntRange n tags.min tags.max = none) ∧
       (∀ e, validateIntRange n tags.min tags.max = some e →
          rangeValidatorValidate (.intV n) tags =
            some ((if tags.rangeErr = "" then ErrOutOfRange else tags.rangeErr) ++
              ": " ++ e)))) ∧
    (∀ (q : ℚ) (tags : Tags), ¬(tags.min = "" ∧ tags.max = "") →
      ((rangeValidatorValidate (.float64V q) tags = none ↔
          validateFloatRange q tags.min tags.max = none) ∧
       (∀ e, validateFloatRange q tags.min tags.max = some e →
          rangeValidatorValidate (.float64V q) tags =
            some ((if tags.rangeErr = "" then ErrOutOfRange else tags.rangeErr) ++
              ": " ++ e)))) := by
  have hBoth : ∀ (tags : Tags), ¬(tags.min = "" ∧ tags.max = "") →
      (tags.min = "" && tags.max = "") = false := by
    intro tags h
    by_cases h1 : tags.min = "" <;> by_cases h2 : tags.max = "" <;>
      simp_all
  refine ⟨?_, ?_, ?_, ?_, ?_, ?_, validateIntRange_none_iff,
    validateFloatRange_none_iff, ?_, ?_⟩
  · intro v tags h1 h2
    unfold rangeValidatorValidate
    simp [h1, h2]
  · intro n tags
    refine ⟨?_, ?_, ?_, ?_⟩ <;>
      · unfold rangeValidatorValidate
        by_cases h : (tags.min = "" && tags.max = "") = true <;> simp [h]
  · intro q tags
    unfold rangeValidatorValidate
    by_cases h : (tags.min = "" && tags.max = "") = true <;> simp [h]
  · intro s tags
    unfold rangeValidatorValidate
    by_cases h : (tags.min = "" && tags.max = "") = true <;> simp [h]
  · intro b tags
    unfold rangeValidatorValidate
    by_cases h : (tags.min = "" && tags.max = "") = true <;> simp [h]
  · intro t xs tags
    unfold rangeValidatorValidate
    by_cases h : (tags.min = "" && tags.max = "") = true <;> simp [h]
  · intro n tags h
    unfold rangeValidatorValidate
    rw [hBoth tags h]
    simp only [Bool.false_eq_true, if_false]
    cases hv : validateIntRange n tags.min tags.max with
    | none => simp
    | some e => simp
  · intro q tags h
    unfold rangeValidatorValidate
    rw [hBoth tags h]
    simp only [Bool.false_eq_true, if_false]
    cases hv : validateFloatRange q tags.min tags.max with
    | none => simp
    | some e => simp

/-- C4 witness: the amended characterization at the spec's own example —
bounds 0 and 100 with value 101 (out of range) on an int field. -/
theorem c4_range_validator_witness :
    (rangeValidatorValidate (.intV 101) { min := "0", max := "100" } = none ↔
      validateIntRange 101 "0" "100" = none) ∧
    (rangeValidatorValidate (.int64V 101) { min := "0", max := "100" } = none ↔
      validateIntRange 101 "0" "100" = none) ∧
    (∀ e, validateIntRange 101 "0" "100" = some e →
      rangeValidatorValidate (.intV 101) { min := "0", max := "100" } =
        some ((if ("" : String) = "" then ErrOutOfRange else "") ++ ": " ++ e)) :=
  c4_range_validator.2.2.2.2.2.2.2.2.1 101 { min := "0", max := "100" }
    (by decide)

/-- C6: a leaf with an absent env annotation is skipped untouched; an
annotated leaf that is not duration-typed and not slice-kinded and whose
kind has no registered parser yields exactly the kind-naming
unsupported-type error with the field untouched (no parser ran);
duration-typed and slice-kinded leaves always take their dedicated
paths; a registered parser always runs instead; the default registry
registers exactly string, int64, int, slice, bool, float64; and inside a
struct the unsupported error aborts the walk immediately, wrapped with
the field name, with the remaining siblings untouched. -/
theorem c6_unsupported_type :
    (∀ (l : EnvLoader) (env : Env) (tags : Tags) (v : Val), tags.env = "" →
      loadField l env tags v = (v, none)) ∧
    (∀ (l : EnvLoader) (envValue : String) (tags : Tags) (v : Val),
      isDurationType v = false → v.kind ≠ .slice → l.parsers v.kind = none →
        parseAndValidateField l envValue tags v =
          (v, some ("unsupported type: " ++ kindString v.kind))) ∧
    (∀ (l : EnvLoader) (envValue : String) (tags : Tags) (v : Val),
      isDurationType v = true →
        parseAndValidateField l envValue tags v =
          parseAndValidateDuration l envValue tags v) ∧
    (∀ (l : EnvLoader) (envValue : String) (tags : Tags) (v : Val),
      isDurationType v = false → v.kind = .slice →
        parseAndValidateField l envValue tags v =
          parseAndValidateSlice l envValue tags v) ∧
    (∀ (l : EnvLoader) (envValue : String) (tags : Tags) (v : Val)
        (p : ValueParser),
      isDurationType v = false → v.kind ≠ .slice → l.parsers v.kind = some p →
        parseAndValidateField l envValue tags v =
          (match p envValue v with
           | .error e => (v, some e)
           | .ok v' => (v', validateField l v' tags))) ∧
    (∀ k : Kind, defaultParsers k = none ↔
      (k ≠ .string ∧ k ≠ .int64 ∧ k ≠ .int ∧ k ≠ .slice ∧ k ≠ .bool ∧
        k ≠ .float64)) ∧
    (∀ (l : EnvLoader) (env : Env) (name : String) (tags : Tags) (v : Val)
        (rest : StructFields),
      tags.env ≠ "" → isNestedStruct v = false → isDurationType v = false →
        v.kind ≠ .slice → l.parsers v.kind = none →
          loadStruct l env (.structV (.cons name tags v rest)) =
            .fail (.structV (.cons name tags v rest))
              ("field " ++ name ++ ": unsupported type: " ++ kindString v.kind)) := by
  refine ⟨?_, ?_, ?_, ?_, ?_, ?_, ?_⟩
  · intro l env tags v h
    unfold loadField
    simp [h]
  · intro l envValue tags v hd hs hp
    unfold parseAndValidateField
    simp [hd, hs, hp]
  · intro l envValue tags v hd
    unfold parseAndValidateField
    simp [hd]
  · intro l envValue tags v hd hs
    unfold parseAndValidateField
    simp [hd, hs]
  · intro l envValue tags v p hd hs hp
    unfold parseAndValidateField
    simp [hd, hs, hp]
  · intro k
    cases k <;> simp [defaultParsers]
  · intro l env name tags v rest henv hn hd hs hp
    have hleaf : loadField l env tags v =
        (v, some ("unsupported type: " ++ kindString v.kind)) := by
      unfold loadField
      simp only [henv, if_false]
      unfold parseAndValidateField
      simp [hd, hs, hp]
    unfold loadStruct loadFieldsGo
    simp [hn, hleaf, String.append_assoc]
    rw [show (": " : String) ++ ("unsupported type: " ++ kindString v.kind) =
      ": unsupported type: " ++ kindString v.kind from by
        rw [← String.append_assoc]
        congr 1]

/-- C6 witness: a complex128 leaf with an env annotation aborts the load
of its struct with the kind-naming unsupported-type error, leaving both
it and its later sibling untouched. -/
theorem c6_unsupported_type_witness :
    loadStruct defaultLoader emptyEnv
        (.structV (.cons "C" { env := "C_KEY" } .complexV
          (.cons "Later" { env := "L" } (.strV "") .nil))) =
      .fail (.structV (.cons "C" { env := "C_KEY" } .complexV
          (.cons "Later" { env := "L" } (.strV "") .nil)))
        ("field " ++ "C" ++ ": unsupported type: " ++ kindString .complex128) :=
  c6_unsupported_type.2.2.2.2.2.2 defaultLoader emptyEnv "C" { env := "C_KEY" }
    .complexV (.cons "Later" { env := "L" } (.strV "") .nil)
    (by decide) rfl rfl (by decide) rfl

/-- C8 counterexample: a pointer to an int is not a pointer to a
structure, yet LoadConfig does not return the "config must be a pointer"
error — the kind guard passes and the walk hits reflect's NumField
panic. -/
theorem c8_counterexample :
    loadConfigGo defaultLoader emptyEnv (.ptr (.intV 0)) =
      .panics (.intV 0) "reflect: call of reflect.Value.NumField on int Value" ∧
    ¬(loadConfigGo defaultLoader emptyEnv (.ptr (.intV 0)) =
        .fail (.intV 0) "config must be a pointer") := by
  refine ⟨rfl, fun h => ?_⟩
  have h1 : (Outcome.panics (.intV 0)
      "reflect: call of reflect.Value.NumField on int Value") =
      .fail (.intV 0) "config must be a pointer" := by
    exact rfl.symm.trans h
  cases h1

/-- C8 (amended): every argument whose kind is not pointer is rejected
immediately with "config must be a pointer", with the argument
unmodified and the environment never read; a pointer to a non-structure
is not caught by that guard (the walk then faults, as the
counterexample shows). -/
theorem c8_non_pointer :
    ∀ (l : EnvLoader) (env : Env) (v : Val),
      loadConfigGo l env (.nonPtr v) = .fail v "config must be a pointer" ∧
      (∀ env' : Env, loadConfigGo l env (.nonPtr v) = loadConfigGo l env' (.nonPtr v)) :=
  fun _ _ _ => ⟨rfl, fun _ => rfl⟩

/-- The field loop on a cons, written through the one-field view: a
nested struct recurses, a leaf goes through loadField; failure wraps the
field name and keeps the remaining siblings. -/
theorem loadFieldsGo_cons_eq (l : EnvLoader) (env : Env) (name : String)
    (tags : Tags) (v : Val) (rest : StructFields) :
    loadFieldsGo l env (.cons name tags v rest) =
      (match processField1 l env tags v with
       | .ok v' => consF name tags v' (loadFieldsGo l env rest)
       | .fail v' m => .fail (.cons name tags v' rest) ("field " ++ name ++ ": " ++ m)
       | .panics v' m => .panics (.cons name tags v' rest) m) := by
  rw [loadFieldsGo.eq_def]
  unfold processField1
  by_cases hn : isNestedStruct v
  · cases ho : loadStruct l env v <;> simp [hn, ho]
  · rcases hf : loadField l env tags v with ⟨v', e⟩
    cases e <;> simp [hn, hf]

/-- Prepending processed fields preserves a failure, appending the
processed fields in front of the failure state. -/
theorem prependF_fail : ∀ (fs fs' : StructFields) (m : String),
    prependF fs (.fail fs' m) = .fail (sfAppend fs fs') m
  | .nil, _, _ => rfl
  | .cons n t v rest, fs', m => by
    show consF n t v (prependF rest (.fail fs' m)) = _
    rw [prependF_fail rest fs' m]
    rfl

/-- If a leading run of fields processes cleanly, the loop on the whole
list is the loop on the remainder, with the processed run prepended. -/
theorem loadFieldsGo_append_ok (l : EnvLoader) (env : Env) :
    ∀ (pre xs pre' : StructFields),
      loadFieldsGo l env pre = .ok pre' →
      loadFieldsGo l env (sfAppend pre xs) = prependF pre' (loadFieldsGo l env xs)
  | .nil, xs, pre', h => by
    rw [loadFieldsGo.eq_def] at h
    have h' : (OutcomeF.ok StructFields.nil) = .ok pre' := h
    injection h' with h1
    subst h1
    rfl
  | .cons n t v rest, xs, pre', h => by
    rw [loadFieldsGo_cons_eq] at h
    have hgoal : sfAppend (.cons n t v rest) xs = .cons n t v (sfAppend rest xs) := rfl
    rw [hgoal, loadFieldsGo_cons_eq]
    cases hpf : processField1 l env t v with
    | ok v' =>
      rw [hpf] at h
      cases hrest : loadFieldsGo l env rest with
      | ok rest' =>
        rw [hrest] at h
        have h1 : (OutcomeF.ok (StructFields.cons n t v' rest')) = .ok pre' := h
        injection h1 with h2
        subst h2
        rw [loadFieldsGo_append_ok l env rest xs rest' hrest]
        rfl
      | fail a b =>
        rw [hrest] at h
        exact absurd h (by simp [consF])
      | panics a b =>
        rw [hrest] at h
        exact absurd h (by simp [consF])
    | fail v' m =>
      rw [hpf] at h
      exact absurd h (by simp)
    | panics v' m =>
      rw [hpf] at h
      exact absurd h (by simp)

/-- C3: when a field's processing fails after a cleanly-processed run of
earlier siblings, the struct load returns a single error wrapped with
the failing field's name (repeated wrapping yields the nested path),
the siblings declared after it are left untouched (unprocessed), and
the earlier siblings keep their processed values. -/
theorem c3_failure_semantics :
    ∀ (l : EnvLoader) (env : Env) (pre pre' : StructFields) (name : String)
      (tags : Tags) (v v' : Val) (rest : StructFields) (msg : String),
      loadFieldsGo l env pre = .ok pre' →
      processField1 l env tags v = .fail v' msg →
      loadStruct l env (.structV (sfAppend pre (.cons name tags v rest))) =
        .fail (.structV (sfAppend pre' (.cons name tags v' rest)))
          ("field " ++ name ++ ": " ++ msg) := by
  intro l env pre pre' name tags v v' rest msg hpre hf
  have happ := loadFieldsGo_append_ok l env pre (.cons name tags v rest) pre' hpre
  have hc := loadFieldsGo_cons_eq l env name tags v rest
  rw [hf] at hc
  have hc2 : loadFieldsGo l env (.cons name tags v rest) =
      .fail (.cons name tags v' rest) ("field " ++ name ++ ": " ++ msg) := hc
  rw [hc2] at happ
  rw [prependF_fail] at happ
  rw [loadStruct.eq_def]
  show (match loadFieldsGo l env (sfAppend pre (.cons name tags v rest)) with
    | .ok fs' => Outcome.ok (.structV fs')
    | .fail fs' m => .fail (.structV fs') m
    | .panics fs' m => .panics (.structV fs') m) = _
  rw [happ]

/-- C3 witness: a clean first field, then a nested struct whose inner
required field fails: the error carries the dotted path
"field Outer: field Inner: ...", the later sibling is untouched, and the
first field keeps its processed value. -/
theorem c3_failure_semantics_witness :
    loadStruct defaultLoader emptyEnv
        (.structV (.cons "A" { env := "A_KEY" } (.strV "")
          (.cons "Outer" {}
            (.structV (.cons "Inner" { env := "X", required := "true" } (.strV "") .nil))
            (.cons "Later" { env := "L" } (.int64V 7) .nil)))) =
      .fail (.structV (.cons "A" { env := "A_KEY" } (.strV "")
          (.cons "Outer" {}
            (.structV (.cons "Inner" { env := "X", required := "true" } (.strV "") .nil))
            (.cons "Later" { env := "L" } (.int64V 7) .nil))))
        "field Outer: field Inner: required field is empty" :=
  c3_failure_semantics defaultLoader emptyEnv
    (.cons "A" { env := "A_KEY" } (.strV "") .nil)
    (.cons "A" { env := "A_KEY" } (.strV "") .nil)
    "Outer" {}
    (.structV (.cons "Inner" { env := "X", required := "true" } (.strV "") .nil))
    (.structV (.cons "Inner" { env := "X", required := "true" } (.strV "") .nil))
    (.cons "Later" { env := "L" } (.int64V 7) .nil)
    "field Inner: required field is empty"
    rfl rfl

/-- C7: on a non-empty raw string the duration parser appends a seconds
unit exactly when the string parses as a bare base-10 integer, then
delegates to the duration-literal parser; "30" is 30 seconds, "5m" five
minutes, "-10s" minus ten seconds, "invalid" an error; a parse error
leaves the field unchanged through the duration pipeline. -/
theorem c7_duration_parsing :
    (∀ (value : String) (field : Val), value ≠ "" →
      ((∃ n, goAtoi value = .ok n) →
        durationParserParse value field =
          (match goParseDuration (value ++ "s") with
           | .error e => .error e
           | .ok d => .ok (.durationV d))) ∧
      ((∃ e, goAtoi value = .error e) →
        durationParserParse value field =
          (match goParseDuration value with
           | .error e => .error e
           | .ok d => .ok (.durationV d)))) ∧
    durationParserParse "30" (.durationV 0) = .ok (.durationV 30000000000) ∧
    durationParserParse "5m" (.durationV 0) = .ok (.durationV 300000000000) ∧
    durationParserParse "-10s" (.durationV 0) = .ok (.durationV (-10000000000)) ∧
    durationParserParse "invalid" (.durationV 0) =
      .error "time: invalid duration \"invalid\"" ∧
    (∀ (l : EnvLoader) (tags : Tags) (field : Val) (value e : String),
      durationParserParse value field = .error e →
        parseAndValidateDuration l value tags field = (field, some e)) := by
  refine ⟨?_, rfl, rfl, rfl, rfl, ?_⟩
  · intro value field hne
    constructor
    · rintro ⟨n, hn⟩
      unfold durationParserParse
      simp [hne, hn]
    · rintro ⟨e, he⟩
      unfold durationParserParse
      simp [hne, he]
  · intro l tags field value e h
    unfold parseAndValidateDuration
    rw [h]

/-- C7 witness: the structural clause at "30", a bare integer — the
parse is the parse of "30" ++ "s". -/
theorem c7_duration_parsing_witness :
    durationParserParse "30" (.durationV 0) =
      (match goParseDuration ("30" ++ "s") with
       | .error e => .error e
       | .ok d => .ok (.durationV d)) :=
  (c7_duration_parsing.1 "30" (.durationV 0) (by decide)).1 ⟨30, rfl⟩

/-- C9: for a non-empty raw value on a slice field, a missing element
parser fails closed with the element-kind-naming error; if the provided
element parser rejects any comma-separated element the whole parse
errors; a successful parse is exactly the slice assembled from every
element; and through the loader's slice pipeline an error leaves the
target field completely unchanged. -/
theorem c9_slice_parser_atomic :
    (∀ (value : String) (elemT : GoType) (xs : ValList)
        (g : Kind → Option ValueParser),
      value ≠ "" → g elemT.kind = none →
        sliceParserParseWithContext value (.sliceV elemT xs) (some g) =
          .error ("unsupported slice element type: " ++ kindString elemT.kind)) ∧
    (∀ (value : String) (elemT : GoType) (xs : ValList)
        (g : Kind → Option ValueParser) (p : ValueParser),
      value ≠ "" → g elemT.kind = some p →
        sliceParserParseWithContext value (.sliceV elemT xs) (some g) =
          (match parseElems p elemT (goSplitComma value) with
           | .error e => .error e
           | .ok vs => .ok (.sliceV elemT vs))) ∧
    (∀ (p : ValueParser) (elemT : GoType) (ss : List String),
      (∃ s ∈ ss, ∃ e, p s (zeroVal elemT) = .error e) →
        ∃ e, parseElems p elemT ss = .error e) ∧
    (∀ (l : EnvLoader) (value : String) (tags : Tags) (field : Val) (e : String),
      sliceParserParseWithContext value field (some l.parsers) = .error e →
        parseAndValidateSlice l value tags field = (field, some e)) := by
  refine ⟨?_, ?_, ?_, ?_⟩
  · intro value elemT xs g hne hg
    unfold sliceParserParseWithContext Val.depthB sliceParseAux
    simp [hne, hg]
  · intro value elemT xs g p hne hg
    unfold sliceParserParseWithContext Val.depthB sliceParseAux
    simp [hne, hg]
  · intro p elemT ss
    induction ss with
    | nil => rintro ⟨s, hs, _⟩; cases hs
    | cons s rest ih =>
      rintro ⟨s', hs', e', he'⟩
      cases hps : p s (zeroVal elemT) with
      | error e => exact ⟨e, by unfold parseElems; rw [hps]⟩
      | ok v =>
        cases hs' with
        | head =>
          rw [hps] at he'
          cases he'
        | tail _ hmem =>
          obtain ⟨e2, he2⟩ := ih ⟨s', hmem, e', he'⟩
          exact ⟨e2, by unfold parseElems; rw [hps, he2]⟩
  · intro l value tags field e h
    unfold parseAndValidateSlice
    rw [h]

/-- C9 witness: "1,a,3" into an int64 slice — the middle element fails
the int64 parser, the whole parse errors, and the pipeline leaves the
field at its prior (nil) value. -/
theorem c9_slice_parser_atomic_witness :
    parseAndValidateSlice defaultLoader "1,a,3" {} (.sliceV .int64T .nil) =
      (.sliceV .int64T .nil,
        some "strconv.ParseInt: parsing \"a\": invalid syntax") :=
  c9_slice_parser_atomic.2.2.2 defaultLoader "1,a,3" {} (.sliceV .int64T .nil)
    "strconv.ParseInt: parsing \"a\": invalid syntax" rfl

/-- C10: duration-typed fields are parsed by the freshly built duration
parser — the loader's parser map never enters the outcome, whatever is
registered there, including at the int64 kind; slice-kinded fields are
parsed by the freshly built slice parser, consulting the map only at the
element kind, so registering a parser for the slice kind never changes a
top-level slice parse whose elements are not themselves slices; and
WithParser does install its parser at the registered kind. -/
theorem c10_builtin_parser_isolation :
    (∀ (l₁ l₂ : EnvLoader) (envValue : String) (tags : Tags) (field : Val),
      isDurationType field = true → l₁.validators = l₂.validators →
        parseAndValidateField l₁ envValue tags field =
          parseAndValidateField l₂ envValue tags field) ∧
    (∀ (l₁ l₂ : EnvLoader) (envValue : String) (tags : Tags) (elemT : GoType)
        (xs : ValList),
      l₁.validators = l₂.validators →
      l₁.parsers elemT.kind = l₂.parsers elemT.kind →
        parseAndValidateField l₁ envValue tags (.sliceV elemT xs) =
          parseAndValidateField l₂ envValue tags (.sliceV elemT xs)) ∧
    (∀ (l : EnvLoader) (p : ValueParser) (envValue : String) (tags : Tags)
        (elemT : GoType) (xs : ValList),
      elemT.kind ≠ .slice →
        parseAndValidateField (withParser .slice p l) envValue tags
            (.sliceV elemT xs) =
          parseAndValidateField l envValue tags (.sliceV elemT xs)) ∧
    (∀ (l : EnvLoader) (p : ValueParser) (k : Kind) (envValue : String)
        (tags : Tags) (n : Int),
      parseAndValidateField (withParser k p l) envValue tags (.durationV n) =
        parseAndValidateField l envValue tags (.durationV n)) ∧
    (∀ (l : EnvLoader) (p : ValueParser) (k : Kind),
      (withParser k p l).parsers k = some p) := by
  have hdur : ∀ (l₁ l₂ : EnvLoader) (envValue : String) (tags : Tags)
      (field : Val), isDurationType field = true → l₁.validators = l₂.validators →
      parseAndValidateField l₁ envValue tags field =
        parseAndValidateField l₂ envValue tags field := by
    intro l₁ l₂ envValue tags field hd hv
    unfold parseAndValidateField parseAndValidateDuration validateField
    rw [hv]
    simp [hd]
  have hprov : ∀ (fuel : Nat) (value : String) (elemT : GoType) (xs : ValList)
      (g₁ g₂ : Kind → Option ValueParser), g₁ elemT.kind = g₂ elemT.kind →
      sliceParseAux fuel value (.sliceV elemT xs) (some g₁) =
        sliceParseAux fuel value (.sliceV elemT xs) (some g₂) := by
    intro fuel value elemT xs g₁ g₂ hg
    cases fuel with
    | zero => rfl
    | succ fuel =>
      unfold sliceParseAux
      simp [hg]
  have hslice : ∀ (l₁ l₂ : EnvLoader) (envValue : String) (tags : Tags)
      (elemT : GoType) (xs : ValList),
      l₁.validators = l₂.validators →
      l₁.parsers elemT.kind = l₂.parsers elemT.kind →
        parseAndValidateField l₁ envValue tags (.sliceV elemT xs) =
          parseAndValidateField l₂ envValue tags (.sliceV elemT xs) := by
    intro l₁ l₂ envValue tags elemT xs hv hp
    unfold parseAndValidateField parseAndValidateSlice validateField
    unfold sliceParserParseWithContext
    rw [hprov ((Val.sliceV elemT xs).depthB + 1) envValue elemT xs
      l₁.parsers l₂.parsers hp, hv]
    simp [isDurationType, Val.kind]
  refine ⟨hdur, hslice, ?_, ?_, ?_⟩
  · intro l p envValue tags elemT xs hk
    refine hslice (withParser .slice p l) l envValue tags elemT xs rfl ?_
    unfold withParser
    simp [hk]
  · intro l p k envValue tags n
    exact hdur (withParser k p l) l envValue tags (.durationV n) rfl rfl
  · intro l p k
    unfold withParser
    simp

/-- C10 witness: registering a custom parser for the slice kind does not
change the parse of an int64-element slice field. -/
theorem c10_builtin_parser_isolation_witness :
    parseAndValidateField
        (withParser .slice (fun _ _ => .error "custom") defaultLoader)
        "1,2" {} (.sliceV .int64T .nil) =
      parseAndValidateField defaultLoader "1,2" {} (.sliceV .int64T .nil) :=
  c10_builtin_parser_isolation.2.2.1 defaultLoader (fun _ _ => .error "custom")
    "1,2" {} .int64T .nil (by decide)

end Config
